import Mathlib

/-!
Verification of `my_c_module.c`: a CPython extension exposing one function,
`factorial`, built from a native kernel `c_factorial` and a boundary adapter
`py_factorial`.

Embedding conventions:
* C `int` values are `Int`s in `[int32Min, int32Max]`; C `long` values are
  `Int`s in `[int64Min, int64Max]` (LP64: `long` is 64-bit).
* Signed overflow is modelled as two's-complement wraparound (`wrap32`,
  `wrap64`), matching the spec's "silently wrapped" reading.
* The `for` loop of `c_factorial` is embedded as a fuel-indexed recursion
  `c_factorialLoop`; `none` means the supplied fuel was exhausted before the
  loop's guard failed, so termination statements quantify over fuel.
* The CPython argument-parsing boundary (`PyArg_ParseTuple` with format "i")
  is external host-runtime code, modelled by `try_into_int`/`parseTuple_i`.
-/

/-- Smallest value of the C `int` type (the kernel's parameter type). -/
def int32Min : Int := -2147483648

/-- Largest value of the C `int` type (the kernel's parameter type). -/
def int32Max : Int := 2147483647

/-- Smallest value of the C `long` type (the kernel's accumulator/result type). -/
def int64Min : Int := -9223372036854775808

/-- Largest value of the C `long` type (the kernel's accumulator/result type). -/
def int64Max : Int := 9223372036854775807

/-- Two's-complement wraparound at 32 bits: the value a C `int` holds after an
operation whose mathematical result is `x`. -/
def wrap32 (x : Int) : Int := (x + 2147483648) % 4294967296 - 2147483648

/-- Two's-complement wraparound at 64 bits: the value a C `long` holds after an
operation whose mathematical result is `x`. -/
def wrap64 (x : Int) : Int := (x + 9223372036854775808) % 18446744073709551616 - 9223372036854775808

/-- The loop of `c_factorial` (`my_c_module.c` lines 5-9):
`long result = 1; for (int i = 2; i <= n; i++) { result *= i; }`.
`fuel` bounds the number of iterations the embedding may unfold; exiting via
the guard `i <= n` costs no fuel, so `none` is returned exactly when the fuel
runs out with the guard still true.  The increment `i + 1` wraps at the `int`
width and the accumulation `result * i` wraps at the `long` width. -/
def c_factorialLoop (n : Int) : Nat → Int → Int → Option Int
  | fuel + 1, i, result =>
    if i ≤ n then c_factorialLoop n fuel (wrap32 (i + 1)) (wrap64 (result * i))
    else some result
  | 0, i, result => if i ≤ n then none else some result

/-- `c_factorial` run with an explicit iteration budget. -/
def c_factorialFuel (fuel : Nat) (n : Int) : Option Int :=
  c_factorialLoop n fuel 2 1

/-- The kernel `c_factorial` (`my_c_module.c` lines 4-10), run with enough fuel
for every terminating input: the loop body executes `max (n-1) 0` times when it
terminates, and `n.toNat + 1` exceeds that. -/
def c_factorial (n : Int) : Option Int :=
  c_factorialFuel (n.toNat + 1) n

/-- The tail product `i * (i+1) * ... * (i+k-1)`: the factors the kernel's loop
multiplies into the accumulator when it starts at `i` and runs `k` iterations. -/
def tailProd : Nat → Int → Int
  | 0, _ => 1
  | k + 1, i => i * tailProd k (i + 1)

/-- Error taxonomy of the Boundary Adapter (spec section 7). -/
inductive AdapterError where
  | arityError
  | typeConversionError
deriving DecidableEq

/-- A host-runtime (Python) value as far as the format "i" conversion is
concerned: a Python `int`, a `bool` (a Python subtype of `int`), a text value,
or an object implementing the integer-index protocol. -/
inductive HostValue where
  | pyInt (v : Int)
  | pyBool (b : Bool)
  | pyStr (s : String)
  | pyIndex (v : Int)
deriving DecidableEq

/-- Modelled from the spec: the host runtime's conversion protocol used by the
adapter's parse step (CPython's `PyArg_ParseTuple` format "i", which is host
code outside this repository).  Per the documented semantics, a Python `int`
in `int` range converts to itself, a `bool` converts (it is a subtype of
`int`) to 0 or 1, an object implementing the integer-index protocol converts
to its index value when in range, and a text value does not convert; values
out of the native `int` range fail to convert. -/
def try_into_int : HostValue → Option Int
  | .pyInt v => if int32Min ≤ v ∧ v ≤ int32Max then some v else none
  | .pyBool b => some (if b then 1 else 0)
  | .pyStr _ => none
  | .pyIndex v => if int32Min ≤ v ∧ v ≤ int32Max then some v else none

/-- Modelled from the spec: `PyArg_ParseTuple(args, "i", &n)` (host code
outside this repository).  It fails with an arity error unless `args` has
exactly one element, and with a type-conversion error if the single element
does not convert to a native `int`. -/
def parseTuple_i (args : List HostValue) : Except AdapterError Int :=
  match args with
  | [a] =>
    match try_into_int a with
    | some v => Except.ok v
    | none => Except.error AdapterError.typeConversionError
  | _ => Except.error AdapterError.arityError

/-- The adapter `py_factorial` (`my_c_module.c` lines 13-23), instrumented: the
second component records whether control reached the kernel invocation
(line 20).  On parse failure the adapter returns the error sentinel (`NULL`
with the host error slot set, modelled as `Except.error`) without invoking the
kernel; on success it wraps the kernel result in a new host integer object
(`PyLong_FromLong`).  The outer `Option` is the kernel's fuel partiality. -/
def py_factorial_run (args : List HostValue) :
    Option (Except AdapterError HostValue) × Bool :=
  match parseTuple_i args with
  | .error e => (some (Except.error e), false)
  | .ok n => ((c_factorial n).map (fun r => Except.ok (HostValue.pyInt r)), true)

/-- The observable result of one call of `py_factorial`. -/
def py_factorial (args : List HostValue) : Option (Except AdapterError HostValue) :=
  (py_factorial_run args).1

/-- Whether a call of `py_factorial` invokes the kernel `c_factorial`. -/
def invokesKernel (args : List HostValue) : Bool :=
  (py_factorial_run args).2

/-- The kernel terminates on input `n`: some iteration budget suffices. -/
def kernelTerminates (n : Int) : Prop :=
  ∃ fuel, (c_factorialFuel fuel n).isSome

/-- Modelled from the spec: a variant kernel whose accumulator has the
parameter's 32-bit width, as the spec's data model ("the native parameter and
accumulator type" being one `NativeInteger`) describes.  Compared against
`c_factorialLoop`, which follows the source. -/
def c_factorialLoop32 (n : Int) : Nat → Int → Int → Option Int
  | fuel + 1, i, result =>
    if i ≤ n then c_factorialLoop32 n fuel (wrap32 (i + 1)) (wrap32 (result * i))
    else some result
  | 0, i, result => if i ≤ n then none else some result

/-- Modelled from the spec: `c_factorial` with a 32-bit accumulator. -/
def c_factorial32 (n : Int) : Option Int :=
  c_factorialLoop32 n (n.toNat + 1) 2 1

/-! ### Arithmetic facts about the wraparound operations -/

lemma wrap32_bounds (x : Int) : int32Min ≤ wrap32 x ∧ wrap32 x ≤ int32Max := by
  unfold wrap32 int32Min int32Max; omega

lemma wrap32_eq_self (x : Int) (h1 : int32Min ≤ x) (h2 : x ≤ int32Max) : wrap32 x = x := by
  simp only [int32Min, int32Max] at h1 h2; unfold wrap32; omega

lemma wrap64_bounds (x : Int) : int64Min ≤ wrap64 x ∧ wrap64 x ≤ int64Max := by
  unfold wrap64 int64Min int64Max; omega

lemma wrap64_eq_self (x : Int) (h1 : int64Min ≤ x) (h2 : x ≤ int64Max) : wrap64 x = x := by
  simp only [int64Min, int64Max] at h1 h2; unfold wrap64; omega

lemma wrap64_mod (x : Int) :
    wrap64 x % 18446744073709551616 = x % 18446744073709551616 := by
  unfold wrap64; omega

lemma wrap64_congr {a b : Int}
    (h : a % 18446744073709551616 = b % 18446744073709551616) :
    wrap64 a = wrap64 b := by
  unfold wrap64; omega

lemma wrap64_wrap64 (x : Int) : wrap64 (wrap64 x) = wrap64 x := by
  have h := wrap64_bounds x
  exact wrap64_eq_self _ h.1 h.2

lemma wrap64_mul_left (a b : Int) : wrap64 (wrap64 a * b) = wrap64 (a * b) := by
  refine wrap64_congr ?_
  rw [Int.mul_emod, wrap64_mod, ← Int.mul_emod]

/-! ### The kernel loop computes a wrapped factorial -/

lemma tailProd_factorial : ∀ (k j : Nat),
    (Nat.factorial j : Int) * tailProd k ((j : Int) + 1) = (Nat.factorial (j + k) : Int) := by
  intro k
  induction k with
  | zero => intro j; simp [tailProd]
  | succ k ih =>
    intro j
    have h := ih (j + 1)
    rw [show j + 1 + k = j + (k + 1) from by omega] at h
    push_cast at h
    have hf : ((Nat.factorial (j + 1) : Nat) : Int) = ((j : Int) + 1) * (Nat.factorial j : Int) := by
      rw [Nat.factorial_succ]; push_cast; ring
    simp only [tailProd]
    rw [← h, hf]
    ring

lemma tailProd_two (k : Nat) : tailProd k 2 = (Nat.factorial (k + 1) : Int) := by
  have h := tailProd_factorial k 1
  rw [show 1 + k = k + 1 from by omega] at h
  rw [show ((1 : Nat) : Int) + 1 = 2 by norm_num] at h
  rw [Nat.factorial_one] at h
  simpa using h

lemma c_factorialLoop_run : ∀ (k : Nat) (n i r : Int) (fuel : Nat),
    n ≤ int32Max - 1 → 2 ≤ i → i + k = n + 1 → wrap64 r = r → k ≤ fuel →
    c_factorialLoop n fuel i r = some (wrap64 (r * tailProd k i)) := by
  intro k
  induction k with
  | zero =>
    intro n i r fuel hn hi hk hr hf
    have hgt : ¬ i ≤ n := by omega
    cases fuel with
    | zero => simp [c_factorialLoop, hgt, tailProd, hr]
    | succ f => simp [c_factorialLoop, hgt, tailProd, hr]
  | succ k ih =>
    intro n i r fuel hn hi hk hr hf
    have hin : i ≤ n := by omega
    cases fuel with
    | zero => omega
    | succ f =>
      have hw32 : wrap32 (i + 1) = i + 1 := by
        refine wrap32_eq_self _ ?_ ?_
        · simp only [int32Min]; omega
        · simp only [int32Max] at hn ⊢; omega
      simp only [c_factorialLoop, if_pos hin, hw32]
      rw [ih n (i + 1) (wrap64 (r * i)) f hn (by omega) (by omega) (wrap64_wrap64 _) (by omega)]
      congr 1
      rw [wrap64_mul_left]
      simp only [tailProd]
      ring_nf

lemma c_factorial_eq (n : Int) (h : n ≤ int32Max - 1) :
    c_factorial n = some (wrap64 (Nat.factorial n.toNat : Int)) := by
  by_cases h2 : 2 ≤ n
  · have hrun := c_factorialLoop_run (n - 1).toNat n 2 1 (n.toNat + 1) h (le_refl 2)
      (by omega) (by unfold wrap64; omega) (by omega)
    unfold c_factorial c_factorialFuel
    rw [hrun, one_mul, tailProd_two, show (n - 1).toNat + 1 = n.toNat from by omega]
  · have hgt : ¬ (2 : Int) ≤ n := h2
    have htn : Nat.factorial n.toNat = 1 := by
      have : n.toNat = 0 ∨ n.toNat = 1 := by omega
      rcases this with h' | h' <;> simp [h', Nat.factorial]
    unfold c_factorial c_factorialFuel
    simp [c_factorialLoop, hgt, htn]
    unfold wrap64; omega

lemma c_factorialLoop_intmax : ∀ (fuel : Nat) (i r : Int), i ≤ int32Max →
    c_factorialLoop int32Max fuel i r = none := by
  intro fuel
  induction fuel with
  | zero => intro i r h; simp [c_factorialLoop, h]
  | succ f ih =>
    intro i r h
    simp only [c_factorialLoop, if_pos h]
    exact ih _ _ (wrap32_bounds _).2

lemma c_factorialLoop_mem_int64 : ∀ (fuel : Nat) (n i r v : Int),
    int64Min ≤ r → r ≤ int64Max → c_factorialLoop n fuel i r = some v →
    int64Min ≤ v ∧ v ≤ int64Max := by
  intro fuel
  induction fuel with
  | zero =>
    intro n i r v h1 h2 hv
    by_cases hin : i ≤ n <;> simp [c_factorialLoop, hin] at hv
    omega
  | succ f ih =>
    intro n i r v h1 h2 hv
    by_cases hin : i ≤ n
    · simp only [c_factorialLoop, if_pos hin] at hv
      exact ih n _ _ v (wrap64_bounds _).1 (wrap64_bounds _).2 hv
    · simp [c_factorialLoop, hin] at hv
      omega

/-! ### Facts about the adapter's parse step -/

lemma parseTuple_i_arity (args : List HostValue) (h : args.length ≠ 1) :
    parseTuple_i args = Except.error AdapterError.arityError := by
  match args with
  | [] => rfl
  | [a] => simp at h
  | a :: b :: t => rfl

lemma py_factorial_error (args : List HostValue) (e : AdapterError)
    (h : parseTuple_i args = Except.error e) :
    py_factorial args = some (Except.error e) ∧ invokesKernel args = false := by
  simp [py_factorial, invokesKernel, py_factorial_run, h]

/-- A sample text argument for concrete instantiations. -/
def sampleText : String := "not a number"

/-! ### The claims -/

/-- C1: for every integer `n` with `0 <= n <= 12`, the kernel `c_factorial`
returns the mathematically exact factorial of `n`. -/
theorem c_factorial_exact_upto_twelve (n : Int) (h0 : 0 ≤ n) (h1 : n ≤ 12) :
    c_factorial n = some ((Nat.factorial n.toNat : Nat) : Int) := by
  interval_cases n <;> decide

/-- Witness for C1 at `n = 12`: the value is `479001600`. -/
theorem c_factorial_exact_upto_twelve_witness :
    c_factorial 12 = some ((Nat.factorial (Int.toNat 12) : Nat) : Int) :=
  c_factorial_exact_upto_twelve 12 (by decide) (by decide)

/-- C2: for every argument tuple that does not contain exactly one element, or
whose single element cannot be converted to a native `int`, the adapter
`py_factorial` signals an arity or type-conversion error, returns the failure
sentinel distinguishable from any valid result, and never invokes the kernel. -/
theorem py_factorial_rejects_malformed_args (args : List HostValue)
    (h : args.length ≠ 1 ∨ ∃ a, args = [a] ∧ try_into_int a = none) :
    (∃ e, py_factorial args = some (Except.error e)) ∧
    invokesKernel args = false ∧
    (args.length ≠ 1 → py_factorial args = some (Except.error AdapterError.arityError)) ∧
    (∀ a, args = [a] → try_into_int a = none →
      py_factorial args = some (Except.error AdapterError.typeConversionError)) ∧
    (∀ v, py_factorial args ≠ some (Except.ok v)) := by
  have herr : ∃ e, parseTuple_i args = Except.error e := by
    rcases h with h | ⟨a, ha, hn⟩
    · exact ⟨_, parseTuple_i_arity args h⟩
    · subst ha
      refine ⟨AdapterError.typeConversionError, ?_⟩
      simp [parseTuple_i, hn]
  rcases herr with ⟨e, he⟩
  have hmain := py_factorial_error args e he
  refine ⟨⟨e, hmain.1⟩, hmain.2, ?_, ?_, ?_⟩
  · intro hlen
    rw [(py_factorial_error args _ (parseTuple_i_arity args hlen)).1]
  · intro a ha hn
    subst ha
    have hp : parseTuple_i [a] = Except.error AdapterError.typeConversionError := by
      simp [parseTuple_i, hn]
    rw [(py_factorial_error _ _ hp).1]
  · intro v hv
    rw [hmain.1] at hv
    simp at hv

/-- Witness for C2: the empty tuple yields the arity error without invoking the
kernel, and a text argument yields the type-conversion error. -/
theorem py_factorial_rejects_malformed_args_witness :
    py_factorial [] = some (Except.error AdapterError.arityError) ∧ invokesKernel [] = false ∧
    py_factorial [HostValue.pyStr sampleText] =
      some (Except.error AdapterError.typeConversionError) := by
  have h1 := py_factorial_rejects_malformed_args [] (Or.inl (by decide))
  have h2 := py_factorial_rejects_malformed_args [HostValue.pyStr sampleText]
    (Or.inr ⟨HostValue.pyStr sampleText, rfl, rfl⟩)
  exact ⟨h1.2.2.1 (by decide), h1.2.1, h2.2.2.2.1 (HostValue.pyStr sampleText) rfl rfl⟩

/-- C3: for every native integer `n <= 1`, including every negative `n`, the
kernel returns the multiplicative identity 1, the iteration range being empty. -/
theorem c_factorial_le_one_eq_one (n : Int) (h : n ≤ 1) : c_factorial n = some 1 := by
  have h1 : n ≤ int32Max - 1 := by simp only [int32Max]; omega
  have he := c_factorial_eq n h1
  have htn : Nat.factorial n.toNat = 1 := by
    have : n.toNat = 0 ∨ n.toNat = 1 := by omega
    rcases this with h' | h' <;> simp [h', Nat.factorial]
  rw [he, htn]
  decide

/-- Witness for C3 at a negative input and at the boundary inputs 0 and 1. -/
theorem c_factorial_le_one_eq_one_witness :
    c_factorial (-5) = some 1 ∧ c_factorial 0 = some 1 ∧ c_factorial 1 = some 1 :=
  ⟨c_factorial_le_one_eq_one (-5) (by decide), c_factorial_le_one_eq_one 0 (by decide),
    c_factorial_le_one_eq_one 1 (by decide)⟩

/-- C4: for every argument tuple whose single element parses to a native
integer `n`, the adapter returns a newly constructed host integer carrying the
kernel result `c_factorial n`, with the kernel invoked and no error raised. -/
theorem py_factorial_success_returns_kernel_result (a : HostValue) (n r : Int)
    (h1 : try_into_int a = some n) (h2 : c_factorial n = some r) :
    py_factorial [a] = some (Except.ok (HostValue.pyInt r)) ∧ invokesKernel [a] = true := by
  simp [py_factorial, invokesKernel, py_factorial_run, parseTuple_i, h1, h2]

/-- Witness for C4 at the argument 5: the adapter returns the host integer 120. -/
theorem py_factorial_success_returns_kernel_result_witness :
    py_factorial [HostValue.pyInt 5] = some (Except.ok (HostValue.pyInt 120)) ∧
    invokesKernel [HostValue.pyInt 5] = true :=
  py_factorial_success_returns_kernel_result (HostValue.pyInt 5) 5 120 (by decide) (by decide)

/-- C5, counterexample: the claim quantifies over every `n` whose exact
factorial overflows the 64-bit result type, but at `n = INT_MAX` the loop
counter itself wraps, the guard `i <= n` never fails, and the call never
succeeds at all, for any iteration budget. -/
theorem c_factorial_overflow_fails_at_intmax :
    int64Max < ((Nat.factorial (Int.toNat int32Max) : Nat) : Int) ∧
    ¬ kernelTerminates int32Max := by
  constructor
  · have h1 : (21 : Nat) ≤ Int.toNat int32Max := by decide
    have h2 : Nat.factorial 21 ≤ Nat.factorial (Int.toNat int32Max) := Nat.factorial_le h1
    have h3 : int64Max < ((Nat.factorial 21 : Nat) : Int) := by decide
    exact lt_of_lt_of_le h3 (by exact_mod_cast h2)
  · intro h
    obtain ⟨fuel, hf⟩ := h
    simp only [c_factorialFuel] at hf
    rw [c_factorialLoop_intmax fuel 2 1 (by decide)] at hf
    simp at hf

/-- C5, amended: for every `n` with `0 <= n <= INT_MAX - 1` whose exact
factorial exceeds the 64-bit `long` range, the kernel succeeds and returns the
factorial silently wrapped modulo 2^64, a value different from the exact one;
no overflow check is performed.  (At `n = INT_MAX` itself the loop counter
wraps and the call never returns.) -/
theorem c_factorial_wraps_on_overflow (n : Int) (h0 : 0 ≤ n) (h1 : n ≤ int32Max - 1)
    (hover : int64Max < ((Nat.factorial n.toNat : Nat) : Int)) :
    c_factorial n = some (wrap64 ((Nat.factorial n.toNat : Nat) : Int)) ∧
    wrap64 ((Nat.factorial n.toNat : Nat) : Int) ≠ ((Nat.factorial n.toNat : Nat) : Int) := by
  refine ⟨c_factorial_eq n h1, ?_⟩
  have hb := (wrap64_bounds ((Nat.factorial n.toNat : Nat) : Int)).2
  omega

/-- Witness for the amended C5 at `n = 21`, the smallest overflowing input. -/
theorem c_factorial_wraps_on_overflow_witness :
    c_factorial 21 = some (wrap64 ((Nat.factorial (Int.toNat 21) : Nat) : Int)) ∧
    wrap64 ((Nat.factorial (Int.toNat 21) : Nat) : Int) ≠
      ((Nat.factorial (Int.toNat 21) : Nat) : Int) :=
  c_factorial_wraps_on_overflow 21 (by decide) (by decide) (by decide)

/-- C6, counterexample: were the accumulator carried at the parameter's 32-bit
width (`c_factorial32`, the spec's single `NativeInteger` reading), the result
at 13 would wrap to 1932053504; the source's accumulator is a 64-bit `long`
and returns the full 6227020800, which exceeds the 32-bit range. -/
theorem c_factorial_not_single_width :
    c_factorial 13 = some 6227020800 ∧ c_factorial32 13 = some 1932053504 ∧
    c_factorial 13 ≠ c_factorial32 13 ∧ int32Max < 6227020800 := by decide

/-- C6, amended: the kernel's parameter is a 32-bit `int` while its accumulator
and result are a 64-bit `long`: every value the kernel returns lies within the
64-bit range, and accumulation is carried out at that wider width. -/
theorem c_factorial_result_within_int64 (n r : Int) (h : c_factorial n = some r) :
    int64Min ≤ r ∧ r ≤ int64Max := by
  simp only [c_factorial, c_factorialFuel] at h
  exact c_factorialLoop_mem_int64 (n.toNat + 1) n 2 1 r (by decide) (by decide) h

/-- Witness for the amended C6 at `n = 13`, whose result exceeds the 32-bit
range yet lies within the 64-bit range. -/
theorem c_factorial_result_within_int64_witness :
    int64Min ≤ 6227020800 ∧ (6227020800 : Int) ≤ int64Max :=
  c_factorial_result_within_int64 13 6227020800 (by decide)

/-- C7, counterexample: at `n = INT_MAX` the increment of the 32-bit loop
counter wraps, the guard `i <= n` holds for every 32-bit value, and the kernel
never terminates, whatever the iteration budget. -/
theorem c_factorial_diverges_at_intmax : ¬ kernelTerminates int32Max := by
  intro h
  obtain ⟨fuel, hf⟩ := h
  simp only [c_factorialFuel] at hf
  rw [c_factorialLoop_intmax fuel 2 1 (by decide)] at hf
  simp at hf

/-- C7, amended: the kernel terminates and returns a value for every
representable native integer `n` except `INT_MAX`, including `INT_MIN`; it has
no failure path and no way to signal an error. -/
theorem c_factorial_total_below_intmax (n : Int) (h0 : int32Min ≤ n)
    (h1 : n ≤ int32Max - 1) : kernelTerminates n := by
  refine ⟨n.toNat + 1, ?_⟩
  have he := c_factorial_eq n h1
  simp only [c_factorial] at he
  rw [he]
  rfl

/-- Witness for the amended C7 at `n = INT_MIN`. -/
theorem c_factorial_total_below_intmax_witness : kernelTerminates int32Min :=
  c_factorial_total_below_intmax int32Min (by decide) (by decide)

/-- C8: any two calls of the adapter with the same argument tuple return equal
values; the system is pure and stateless, with no persistent state between
invocations (the embedding of the C source, which has no mutable globals, is a
function of the argument tuple alone). -/
theorem py_factorial_deterministic (args : List HostValue)
    (r1 r2 : Option (Except AdapterError HostValue))
    (h1 : py_factorial args = r1) (h2 : py_factorial args = r2) : r1 = r2 := h1 ▸ h2

/-- Witness for C8: two calls at the argument 3 both return the host integer 6. -/
theorem py_factorial_deterministic_witness :
    (some (Except.ok (HostValue.pyInt 6)) : Option (Except AdapterError HostValue)) =
      some (Except.ok (HostValue.pyInt 6)) :=
  py_factorial_deterministic [HostValue.pyInt 3] _ _ rfl rfl

/-- C9: because the accumulator is a 64-bit `long` while the parameter is a
32-bit `int`, the kernel is exact for every `n` with `0 <= n <= 20`, not
merely for the tested range `0 <= n <= 12`. -/
theorem c_factorial_exact_upto_twenty (n : Int) (h0 : 0 ≤ n) (h1 : n ≤ 20) :
    c_factorial n = some ((Nat.factorial n.toNat : Nat) : Int) := by
  interval_cases n <;> decide

/-- Witness for C9 at `n = 20`: the value is exactly `20! = 2432902008176640000`,
which fits in a signed 64-bit `long`. -/
theorem c_factorial_exact_upto_twenty_witness :
    c_factorial 20 = some ((Nat.factorial (Int.toNat 20) : Nat) : Int) :=
  c_factorial_exact_upto_twenty 20 (by decide) (by decide)

/-- C10: some host arguments that are not of the host-native integer type do
convert under the "i" format — a boolean converts to 0 or 1 and an object
implementing the integer-index protocol converts to its index — so the kernel
is invoked and no type-conversion error is raised for them. -/
theorem py_factorial_accepts_nonint_convertibles :
    try_into_int (HostValue.pyBool true) = some 1 ∧
    try_into_int (HostValue.pyIndex 7) = some 7 ∧
    invokesKernel [HostValue.pyBool true] = true ∧
    py_factorial [HostValue.pyBool true] = some (Except.ok (HostValue.pyInt 1)) ∧
    py_factorial [HostValue.pyIndex 7] = some (Except.ok (HostValue.pyInt 5040)) :=
  ⟨by decide, by decide, rfl, rfl, rfl⟩
